import Mathlib

/-!
Shallow embedding of `src/scripts/data_processor.py` (viriation).

External services (HTTP endpoints, JSON parsing, the XSLT converter, the
`metapub` backend tools) are modelled as oracles: each observable result of an
external call is a parameter of `Except Unit _` type, where `Except.error`
stands for a raised Python exception.  Pure string manipulation (filename
derivation, DOI normalization, URL construction) is translated directly.
-/

namespace Viriation

/-! ## String utilities (Python `in`, `split(sep)[-1]`, `replace`) -/

/-- Python `sep in s` on character lists: `sep` occurs as a contiguous
substring of `s` (the empty separator occurs in every string, as in Python). -/
def hasSubstr (sep : List Char) : List Char → Bool
  | [] => sep.isEmpty
  | c :: rest => sep.isPrefixOf (c :: rest) || hasSubstr sep rest

/-- Fuel-driven core of Python `s.split(sep)[-1]`: the text after the final
separator occurrence found by Python's left-to-right non-overlapping scan.
The fuel is only a structural-termination device; `s.length` is always enough
because every recursive call strictly shortens the list. -/
def afterLastAux (sep : List Char) : Nat → List Char → List Char
  | 0, s => s
  | _ + 1, [] => []
  | fuel + 1, c :: rest =>
    if sep.isPrefixOf (c :: rest) && !sep.isEmpty then
      afterLastAux sep fuel ((c :: rest).drop sep.length)
    else if hasSubstr sep rest then
      afterLastAux sep fuel rest
    else
      c :: rest

/-- Python `s.split(sep)[-1]` on character lists. -/
def afterLastSep (sep s : List Char) : List Char :=
  afterLastAux sep s.length s

/-- Python `sep in s` on `String`. -/
def hasSubstrStr (sep s : String) : Bool :=
  hasSubstr sep.data s.data

/-- Python `s.split(sep)[-1]` on `String`. -/
def afterLastStr (sep s : String) : String :=
  ⟨afterLastSep sep.data s.data⟩

/-- Character map used by `file_name.replace("/", "_")`. -/
def slashToU (c : Char) : Char :=
  if c = '/' then '_' else c

/-- Python `file_name.replace("/", "_")` (single-character replacement). -/
def replaceSlash (s : String) : String :=
  ⟨s.data.map slashToU⟩

/-! ## The DOI-link regex `doi_pattern = r'https:\/\/doi\.org\/[\w/.-]+'`
(`data_processor.py` line 19).  `\w` is modelled over ASCII word characters. -/

/-- Character class `[\w/.-]` of `doi_pattern` (ASCII reading of `\w`). -/
def isDoiChar (c : Char) : Bool :=
  c.isAlphanum || c = '_' || c = '/' || c = '.' || c = '-'

/-- Does the DOI-link pattern match at the head of `s`?  That is, does `s`
start with `https://doi.org/` followed by at least one `[\w/.-]` character? -/
def doiLinkAt (s : List Char) : Bool :=
  "https://doi.org/".data.isPrefixOf s &&
    (match s.drop 16 with
     | c :: _ => isDoiChar c
     | [] => false)

/-- Python `re.search(doi_pattern, s) is not None`: the pattern matches at
some position of `s`. -/
def doiSearch : List Char → Bool
  | [] => false
  | c :: rest => doiLinkAt (c :: rest) || doiSearch rest

/-! ## Filename derivation (`get_file_name`, lines 400-424;
`get_doi_file_name`, lines 426-449) -/

/-- Translation of `get_file_name` (lines 400-424): if the DOI-link regex
matches, keep the text after the last `doi.org/`; otherwise keep the text
after the last `https://`; then replace every `/` with `_`. -/
def get_file_name (key : String) : String :=
  let file_name :=
    if doiSearch key.data then afterLastStr "doi.org/" key
    else afterLastStr "https://" key
  replaceSlash file_name

/-- Translation of `get_doi_file_name` (lines 426-449): if the DOI-link regex
matches, keep the text after the last `doi.org/`; otherwise keep `key`
unchanged; then replace every `/` with `_`. -/
def get_doi_file_name (key : String) : String :=
  let file_name :=
    if doiSearch key.data then afterLastStr "doi.org/" key
    else key
  replaceSlash file_name

/-! ## DOI normalization and request URLs (`get_pmid` lines 56-77,
`get_rxiv_details` lines 81-107) -/

/-- The expression `doi.split('doi.org/')[-1] if 'doi.org/' in doi else doi`
appearing verbatim in `get_pmid` (line 69) and `get_rxiv_details` (line 94). -/
def normalizeDoi (doi : String) : String :=
  if hasSubstrStr "doi.org/" doi then afterLastStr "doi.org/" doi else doi

/-- Prefix of the ID-conversion request URL built by `get_pmid` (line 72). -/
def pmidApiBase : String :=
  "https://www-ncbi-nlm-nih-gov.ezproxy.lib.ucalgary.ca/pmc/utils/idconv/v1.0/?tool=doi2pmid&email=david.yang1@ucalgary.ca&ids="

/-- The request URL built by `get_pmid` (line 72). -/
def get_pmid_url (doi : String) : String :=
  pmidApiBase ++ normalizeDoi doi

/-- The request URL built by `get_rxiv_details` (lines 96-99). -/
def get_rxiv_details_url (doi : String) (is_biorxiv : Bool) : String :=
  (if is_biorxiv then "https://api.biorxiv.org/details/biorxiv/"
   else "https://api.medrxiv.org/details/medrxiv/") ++ normalizeDoi doi

/-! ## Annotation fetch (`get_pubtator_bioc_json`, lines 29-52)

The HTTP response is abstracted as a pair (status code, decoded body).
`Except.error ()` models a raised exception (`ConnectionError`). -/

/-- Translation of `get_pubtator_bioc_json` (lines 42-52) as a function of the
observed response: non-200 status raises; a body equal to `'[]'` yields the
absent value `none`; any other body is returned as the document. -/
def get_pubtator_bioc_json (status : Nat) (body : String) : Except Unit (Option String) :=
  if status ≠ 200 then Except.error ()
  else if body = "[]" then Except.ok none
  else Except.ok (some body)

/-! ## Rate-limit decorator parameters

Each rate-limited function in the source carries
`@sleep_and_retry @limits(calls=N, period=T)`.  The `(calls, period)` pairs
below are read off the decorators. -/

/-- Decorator budget of `get_pubtator_bioc_json` (lines 29-30): 3 calls / 1 s. -/
def get_pubtator_bioc_json_rate : Nat × Nat := (3, 1)

/-- Decorator budget of `get_pmid` (lines 56-57): 3 calls / 1 s. -/
def get_pmid_rate : Nat × Nat := (3, 1)

/-- Decorator budget of `get_rxiv_details` (lines 81-82): 1 call / 1 s. -/
def get_rxiv_details_rate : Nat × Nat := (1, 1)

/-- Decorator budget of `get_doi` (lines 451-452): 3 calls / 1 s. -/
def get_doi_rate : Nat × Nat := (3, 1)

/-! ## RateLimiter model

Modelled from the spec: the `RateLimiter` component (§4.1) — the
`sleep_and_retry`/`limits` decorator pair whose implementation (the
third-party `ratelimit` package) is not under `src/`.  The spec describes it
as "fixed fixed-window gating" that "never fails; only delays": a window of
`period` time units opens at its first dispatch; once `n` calls have been
dispatched inside the window, the next caller sleeps until the window ends
and dispatches then, opening a new window.  Times are naturals (e.g., in
milliseconds). -/

/-- State of one service class's limiter: the start time of the current
window and the number of calls already dispatched in it. -/
structure RLState where
  windowStart : Nat
  used : Nat
deriving DecidableEq

/-- Modelled from the spec: one `acquire` of the fixed-window limiter at
request time `t`.  Returns the new state and the dispatch time (`≥ t`;
acquiring never fails, it only delays). -/
def rlAcquire (n period : Nat) (s : RLState) (t : Nat) : RLState × Nat :=
  if s.windowStart + period ≤ t then ({ windowStart := t, used := 1 }, t)
  else if s.used < n then ({ s with used := s.used + 1 }, t)
  else ({ windowStart := s.windowStart + period, used := 1 }, s.windowStart + period)

/-- Modelled from the spec: dispatch times of a sequence of requests issued
at the given (nondecreasing) times through one limiter. -/
def rlRun (n period : Nat) (s : RLState) : List Nat → List Nat
  | [] => []
  | t :: ts =>
    let p := rlAcquire n period s t
    p.2 :: rlRun n period p.1 ts

/-! ## Title search (`get_rxiv_pmid`, lines 111-137) -/

/-- Python `title.replace(" ", "%20")` (line 130) on character lists. -/
def encTitle : List Char → List Char
  | [] => []
  | c :: r => if c = ' ' then '%' :: '2' :: '0' :: encTitle r else c :: encTitle r

/-- Prefix of the PubMed search URL built at line 131. -/
def pubmedBase : String :=
  "http://eutils.ncbi.nlm.nih.gov/entrez/eutils/esearch.fcgi?db=pubmed&retmode=json&retmax=1000&term="

/-- The PubMed search URL built at line 131: base, URL-encoded title, and the
title-field restriction. -/
def pubmed_url (title : String) : String :=
  pubmedBase ++ String.mk (encTitle title.data) ++ "&field=title"

/-- Error kinds of the spec's error taxonomy (§7) used by the title-search
model: `notFound` is "empty result set from a service that returned success"
(the `IndexError` of `idlist[0]` on an empty list), `conn` any other raised
exception. -/
inductive RxErr
  | conn
  | notFound
deriving DecidableEq

/-- Translation of `get_rxiv_pmid` (lines 113-137) over oracles: `details` is
the result of `get_rxiv_details(doi, is_biorxiv).decode('utf-8')`; `titleOf`
extracts `json.loads(details)['collection'][0]['title']` (raising on a
malformed payload); `searchOf` gives the `idlist` of the search response for
a request URL (raising on transport/parse failure).  The first identifier of
the list is returned; an empty list fails (`idlist[0]` raises). -/
def get_rxiv_pmid (details : Except RxErr String)
    (titleOf : String → Except RxErr String)
    (searchOf : String → Except RxErr (List String)) : Except RxErr String :=
  match details with
  | Except.error e => Except.error e
  | Except.ok d =>
    match titleOf d with
    | Except.error e => Except.error e
    | Except.ok t =>
      match searchOf (pubmed_url t) with
      | Except.error e => Except.error e
      | Except.ok [] => Except.error RxErr.notFound
      | Except.ok (p :: _) => Except.ok p

/-- Observation that a Python call returned normally instead of raising. -/
def exceptIsOk {ε α : Type _} : Except ε α → Bool
  | Except.ok _ => true
  | Except.error _ => false

/-! ## Published-paper batch resolution
(`get_journal_publication_bioc`, lines 207-257)

Per input key, the loop body's external observations are collected in a
`JournalOracle`.  The annotation endpoint is shared by both attempts, so its
response is a function of the PMID that is queried. -/

/-- Observable behaviour of the external services for one key of the
published-paper batch. -/
structure JournalOracle where
  /-- Result of `get_pmid(key)` (line 227); `error` is a raised exception. -/
  pmidOfKey : Except Unit String
  /-- Result of `doi2pmid(key)` (line 238); `error` is a raised exception. -/
  doi2pmidOfKey : Except Unit String
  /-- Status code of the annotation-endpoint response for a PMID. -/
  annStatus : String → Nat
  /-- Decoded body of the annotation-endpoint response for a PMID. -/
  annBody : String → String

/-- One `try`-block of the per-key loop: resolve a PMID, fetch its
annotation, and null out an `'[]'` document; any raised exception leaves
`bioc = None` (lines 225-234 and 237-245; the same shape with an extra
`is not None` guard appears in `get_rxiv_bioc`, lines 279-320). -/
def annAttempt (pmidR : Except Unit String) (annStatus : String → Nat)
    (annBody : String → String) : Option String :=
  match pmidR with
  | Except.error _ => none
  | Except.ok pmid =>
    match get_pubtator_bioc_json (annStatus pmid) (annBody pmid) with
    | Except.error _ => none
    | Except.ok none => none
    | Except.ok (some t) => if t = "[]" then none else some t

/-- Per-key body of `get_journal_publication_bioc` (lines 220-252): the
primary attempt (`get_pmid` or the key itself when `isPmidDict`), then, only
when it left `bioc = None`, the alternate attempt through `doi2pmid`.
Returns the final `bioc` value and whether the alternate strategy was tried. -/
def journalKeyStep (o : JournalOracle) (key : String) (isPmidDict : Bool) :
    Option String × Bool :=
  match annAttempt (if isPmidDict then Except.ok key else o.pmidOfKey)
      o.annStatus o.annBody with
  | some s => (some s, false)
  | none => (annAttempt o.doi2pmidOfKey o.annStatus o.annBody, true)

/-- Final placement of one key in `dict` (line 252): kept with its document
unless the final `bioc` is `None` or `'[]'` (line 248). -/
def jResolvedEntry (o : String → JournalOracle) (isPmidDict : Bool)
    (k : String) : Option (String × String) :=
  match (journalKeyStep (o k) k isPmidDict).1 with
  | some s => if s = "[]" then none else some (k, s)
  | none => none

/-- Final placement of one key in `unk_dict` (lines 248-250): present with
value `None` exactly when the final `bioc` is `None` or `'[]'`. -/
def jUnresolvedEntry (o : String → JournalOracle) (isPmidDict : Bool)
    (k : String) : Option (String × Option String) :=
  match (journalKeyStep (o k) k isPmidDict).1 with
  | some s => if s = "[]" then some (k, (none : Option String)) else none
  | none => some (k, (none : Option String))

/-- Translation of `get_journal_publication_bioc` (lines 207-257).  The input
dictionary is a list of keys (all values start as `None`); the result is the
final `(dict, unk_dict)` pair: a key whose final `bioc` is `None` or `'[]'`
goes to `unk_dict` (with value `None`) and is popped from `dict` (lines
248-255), otherwise `dict[key] = bioc` (line 252).  The `Except` result type
records that the Python function may raise; every fallible step of this
function is inside a `try`, so the body is a pure pair. -/
def get_journal_publication_bioc (o : String → JournalOracle)
    (batch : List String) (isPmidDict : Bool) :
    Except Unit (List (String × String) × List (String × Option String)) :=
  Except.ok
    (batch.filterMap (jResolvedEntry o isPmidDict),
     batch.filterMap (jUnresolvedEntry o isPmidDict))

/-! ## Preprint batch resolution (`get_rxiv_bioc`, lines 260-397) -/

/-- Strategies of the preprint cascade, in source order. -/
inductive RxStrategy
  | bioPmid
  | medPmid
  | genPmid
  | detailsLookup
  | pubDoiPmid
  | jatsFallback
deriving DecidableEq

/-- The cascade order of `get_rxiv_bioc`. -/
def rxCascadeOrder : List RxStrategy :=
  [RxStrategy.bioPmid, RxStrategy.medPmid, RxStrategy.genPmid,
   RxStrategy.detailsLookup, RxStrategy.pubDoiPmid, RxStrategy.jatsFallback]

/-- Strategies that can produce an annotation document (all but the details
lookup, which only fetches metadata). -/
def isAnnStrategy (s : RxStrategy) : Bool :=
  !(s = RxStrategy.detailsLookup)

/-- Final disposition of one preprint key: `keep s` is `dict[key] = s`;
`drop` is `unk_dict[key] = None` followed by the pop from `dict`;
`skip` is the bare `continue` at line 350, which leaves the key in `dict`
with its original `None` value and absent from `unk_dict`. -/
inductive KeyFate
  | keep (bioc : String)
  | drop
  | skip
deriving DecidableEq

/-- Observable behaviour of the external services for one key of the
preprint batch. -/
structure RxivOracle where
  /-- Result of `get_rxiv_pmid(key, is_biorxiv=True)` (line 281). -/
  rxivPmidBio : Except Unit String
  /-- Result of `get_rxiv_pmid(key, is_biorxiv=False)` (line 296). -/
  rxivPmidMed : Except Unit String
  /-- Result of `get_pmid(key)` (line 311). -/
  pmidOfKey : Except Unit String
  /-- Status code of the annotation-endpoint response for a PMID. -/
  annStatus : String → Nat
  /-- Decoded body of the annotation-endpoint response for a PMID. -/
  annBody : String → String
  /-- Result of `get_rxiv_details(key, is_biorxiv=True).decode('utf-8')`
  (line 330). -/
  detailsBio : Except Unit String
  /-- Result of `get_rxiv_details(key, is_biorxiv=False).decode('utf-8')`
  (line 347). -/
  detailsMed : Except Unit String
  /-- Result of `json.loads(details)['messages'][0]['status']` (lines
  338-339) for a details payload; `error` is a raised parse/lookup error. -/
  statusOf : String → Except Unit String
  /-- Result of the `json.loads(details)` / `'published' in collection[0]`
  step of `get_rxiv_published_doi` (lines 150-157) for a details payload:
  the published DOI suffix when present, `none` when absent, `error` when
  parsing raises. -/
  publishedParse : String → Except Unit (Option String)
  /-- Result of `get_pmid(doi)` (line 357) for a full published-DOI link. -/
  pmidOfDoi : String → Except Unit String
  /-- Result of `get_rxiv_jats_xml(details)` (line 371) for a details
  payload. -/
  jatsOf : String → Except Unit String
  /-- Result of `convert_jatsxml_to_html(jats_xml, output_file)` (line 380). -/
  convertOk : String → String → Except Unit Unit

/-- Python truthiness of `bioc` combined with `bioc != "[]"` (line 323):
a non-`None`, non-empty, non-`'[]'` document. -/
def nonEmptyDoc : Option String → Bool
  | none => false
  | some s => !(s = "") && !(s = "[]")

/-- Strategies 1-3 of the preprint cascade (lines 279-320): bioRxiv-tagged
PMID, then medRxiv-tagged PMID, then `get_pmid`, each one attempted only
while `converted` is still false.  Returns the `bioc` value after the three
(`converted` is its `isSome`) and the trace of attempts, each entry flagged
with whether it produced a non-empty document. -/
def s1to3 (o : RxivOracle) : Option String × List (RxStrategy × Bool) :=
  match annAttempt o.rxivPmidBio o.annStatus o.annBody with
  | some t => (some t, [(RxStrategy.bioPmid, nonEmptyDoc (some t))])
  | none =>
    match annAttempt o.rxivPmidMed o.annStatus o.annBody with
    | some t =>
      (some t, [(RxStrategy.bioPmid, false), (RxStrategy.medPmid, nonEmptyDoc (some t))])
    | none =>
      match annAttempt o.pmidOfKey o.annStatus o.annBody with
      | some t =>
        (some t, [(RxStrategy.bioPmid, false), (RxStrategy.medPmid, false),
                  (RxStrategy.genPmid, nonEmptyDoc (some t))])
      | none =>
        (none, [(RxStrategy.bioPmid, false), (RxStrategy.medPmid, false),
                (RxStrategy.genPmid, false)])

/-- Result of the details phase (lines 329-350). -/
inductive DetPhase
  /-- The uncaught status extraction at lines 338-339 raised; the exception
  propagates out of `get_rxiv_bioc`. -/
  | raised
  /-- The medRxiv details fetch raised and the loop hit `continue`
  (line 350). -/
  | skipped
  /-- A details payload is in hand; `conv` is the `converted` flag after the
  phase (the bioRxiv `except` at lines 332-335 resets it to `False`). -/
  | got (d : String) (conv : Bool)

/-- The details phase of `get_rxiv_bioc` (lines 329-350): fetch bioRxiv
details (an exception clears `biorxiv`, `converted` and leaves `details =
None`); if a truthy payload was fetched, extract `messages[0].status`
outside any `try` (a raised error propagates) and clear `biorxiv` unless it
is `'ok'`; when `biorxiv` was cleared, fetch medRxiv details, and on an
exception `continue` to the next key. -/
def detailsPhase (o : RxivOracle) (conv3 : Bool) : DetPhase :=
  match o.detailsBio with
  | Except.ok d =>
    if d = "" then
      DetPhase.got "" conv3
    else
      match o.statusOf d with
      | Except.error _ => DetPhase.raised
      | Except.ok stv =>
        if stv = "ok" then DetPhase.got d conv3
        else
          match o.detailsMed with
          | Except.ok d2 => DetPhase.got d2 conv3
          | Except.error _ => DetPhase.skipped
  | Except.error _ =>
    match o.detailsMed with
    | Except.ok d2 => DetPhase.got d2 false
    | Except.error _ => DetPhase.skipped

/-- The published-DOI strategy's `try`-body (lines 354-366):
`get_rxiv_published_doi(details)` (a `None` result makes the subsequent
`get_pmid(None)` raise), `get_pmid(doi)`, and the annotation fetch with the
usual non-`None`/non-`'[]'` guard; any raised exception yields `none`. -/
def s5attempt (o : RxivOracle) (dF : String) : Option String :=
  match o.publishedParse dF with
  | Except.error _ => none
  | Except.ok none => none
  | Except.ok (some p) =>
    match o.pmidOfDoi ("https://doi.org/" ++ p) with
    | Except.error _ => none
    | Except.ok pm =>
      match get_pubtator_bioc_json (o.annStatus pm) (o.annBody pm) with
      | Except.error _ => none
      | Except.ok none => none
      | Except.ok (some t) => if t = "[]" then none else some t

/-- The JATS-fallback `try`-body (lines 370-384): fetch the JATS XML, derive
the output filename from the key (`key.split('doi.org/')[-1]` then
`get_doi_file_name`, lines 372-378), convert it to HTML, and set `bioc` to
the sentinel `"converting"`; any raised exception sets `bioc = None`. -/
def s6attempt (o : RxivOracle) (key dF : String) : Option String :=
  match o.jatsOf dF with
  | Except.error _ => none
  | Except.ok jats =>
    match o.convertOk jats
        ("../../data/scraper/rxiv/html/" ++
          get_doi_file_name (afterLastStr "doi.org/" key) ++ ".html") with
    | Except.error _ => none
    | Except.ok _ => some "converting"

/-- Continuation of the per-key loop of `get_rxiv_bioc` after strategies 1-3
did not short-circuit (lines 329-391): details phase, published-DOI
strategy (only while `converted` is false), JATS fallback (only when
`converted` is false or `bioc == "[]"`), and the final
resolved/unresolved placement. -/
def rxivAfter3 (o : RxivOracle) (key : String) (b3 : Option String)
    (tr3 : List (RxStrategy × Bool)) :
    Except Unit (KeyFate × List (RxStrategy × Bool)) :=
  match detailsPhase o b3.isSome with
  | DetPhase.raised => Except.error ()
  | DetPhase.skipped =>
    Except.ok (KeyFate.skip, tr3 ++ [(RxStrategy.detailsLookup, false)])
  | DetPhase.got dF conv4 =>
    let tr4 := tr3 ++ [(RxStrategy.detailsLookup, true)]
    let st5 : Option String × Bool × List (RxStrategy × Bool) :=
      if conv4 then (b3, conv4, tr4)
      else
        match s5attempt o dF with
        | some t => (some t, true, tr4 ++ [(RxStrategy.pubDoiPmid, nonEmptyDoc (some t))])
        | none => (b3, false, tr4 ++ [(RxStrategy.pubDoiPmid, false)])
    let st6 : Option String × List (RxStrategy × Bool) :=
      if st5.2.1 = false ∨ st5.1 = some "[]" then
        match s6attempt o key dF with
        | some t => (some t, st5.2.2 ++ [(RxStrategy.jatsFallback, true)])
        | none => ((none : Option String), st5.2.2 ++ [(RxStrategy.jatsFallback, false)])
      else (st5.1, st5.2.2)
    match st6.1 with
    | none => Except.ok (KeyFate.drop, st6.2)
    | some s =>
      Except.ok (if s = "[]" then KeyFate.drop else KeyFate.keep s, st6.2)

/-- Per-key body of `get_rxiv_bioc` (lines 272-391): strategies 1-3, the
short-circuit `if bioc and bioc != "[]"` (line 323), and the continuation. -/
def rxivKeyStep (o : RxivOracle) (key : String) :
    Except Unit (KeyFate × List (RxStrategy × Bool)) :=
  match s1to3 o with
  | (some s, tr) =>
    if s = "" ∨ s = "[]" then rxivAfter3 o key (some s) tr
    else Except.ok (KeyFate.keep s, tr)
  | (none, tr) => rxivAfter3 o key none tr

/-- The per-key loop of `get_rxiv_bioc` over the whole batch; an exception
raised while processing any key propagates out of the call. -/
def rxivFates (o : String → RxivOracle) : List String → Except Unit (List (String × KeyFate))
  | [] => Except.ok []
  | k :: ks =>
    match rxivKeyStep (o k) k with
    | Except.error e => Except.error e
    | Except.ok p =>
      match rxivFates o ks with
      | Except.error e => Except.error e
      | Except.ok rest => Except.ok ((k, p.1) :: rest)

/-- Final `dict` entry for one preprint key and its fate (lines 324, 391,
395): kept keys hold their document, skipped keys keep their original `None`
value, dropped keys are popped. -/
def rxDictEntry (kf : String × KeyFate) : Option (String × Option String) :=
  match kf.2 with
  | KeyFate.keep s => some (kf.1, some s)
  | KeyFate.skip => some (kf.1, (none : Option String))
  | KeyFate.drop => none

/-- Final `unk_dict` entry for one preprint key and its fate (line 388). -/
def rxUnkEntry (kf : String × KeyFate) : Option (String × Option String) :=
  match kf.2 with
  | KeyFate.drop => some (kf.1, (none : Option String))
  | _ => none

/-- Translation of `get_rxiv_bioc` (lines 260-397): the final `(dict,
unk_dict)` pair.  A kept key holds its document, a skipped key keeps its
original `None` value in `dict`, a dropped key is popped from `dict` and put
in `unk_dict` with value `None` (lines 387-395). -/
def get_rxiv_bioc (o : String → RxivOracle) (batch : List String) :
    Except Unit (List (String × Option String) × List (String × Option String)) :=
  match rxivFates o batch with
  | Except.error e => Except.error e
  | Except.ok fs =>
    Except.ok (fs.filterMap rxDictEntry, fs.filterMap rxUnkEntry)

/-! ## Helper lemmas -/

theorem annAttempt_ne_box (pr : Except Unit String) (st : String → Nat)
    (bd : String → String) : annAttempt pr st bd ≠ some "[]" := by
  rcases pr with _ | pmid
  · simp [annAttempt]
  · rcases h : get_pubtator_bioc_json (st pmid) (bd pmid) with _ | b
    · simp [annAttempt, h]
    · rcases b with _ | t
      · simp [annAttempt, h]
      · by_cases ht : t = "[]" <;> simp [annAttempt, h, ht]

theorem journalKeyStep_fst_ne_box (o : JournalOracle) (key : String)
    (isPmidDict : Bool) : (journalKeyStep o key isPmidDict).1 ≠ some "[]" := by
  unfold journalKeyStep
  rcases h : annAttempt (if isPmidDict then Except.ok key else o.pmidOfKey)
      o.annStatus o.annBody with _ | s
  · simpa using annAttempt_ne_box _ _ _
  · have := annAttempt_ne_box (if isPmidDict then Except.ok key else o.pmidOfKey)
      o.annStatus o.annBody
    rw [h] at this
    simpa using fun hs => this (by simp [hs])

theorem jResolvedEntry_fst (o : String → JournalOracle) (p : Bool)
    (a : String) (pr : String × String) (h : jResolvedEntry o p a = some pr) :
    pr.1 = a := by
  unfold jResolvedEntry at h
  rcases hs : (journalKeyStep (o a) a p).1 with _ | s <;> rw [hs] at h
  · simp at h
  · by_cases hb : s = "[]" <;> simp [hb] at h
    exact (congrArg Prod.fst h.symm)

theorem jUnresolvedEntry_fst (o : String → JournalOracle) (p : Bool)
    (a : String) (pr : String × Option String)
    (h : jUnresolvedEntry o p a = some pr) : pr.1 = a := by
  unfold jUnresolvedEntry at h
  rcases hs : (journalKeyStep (o a) a p).1 with _ | s <;> rw [hs] at h
  · exact (congrArg Prod.fst (Option.some_injective _ h)).symm ▸ rfl
  · by_cases hb : s = "[]" <;> simp [hb] at h
    exact (congrArg Prod.fst h.symm)

theorem fst_not_mem_filterMap {γ : Type _} (g : String → Option (String × γ))
    (batch : List String) (k : String)
    (hfst : ∀ a pr, g a = some pr → pr.1 = a) (hk : g k = none) :
    k ∉ (batch.filterMap g).map Prod.fst := by
  intro hmem
  rcases List.mem_map.mp hmem with ⟨pr, hpr, hfsteq⟩
  rcases List.mem_filterMap.mp hpr with ⟨a, _, hg⟩
  have ha : pr.1 = a := hfst a pr hg
  rw [hfsteq] at ha
  rw [← ha] at hg
  rw [hk] at hg
  exact Option.noConfusion hg

theorem jResolvedEntry_of_some (o : String → JournalOracle) (p : Bool)
    (k s : String) (hs : (journalKeyStep (o k) k p).1 = some s)
    (hbox : s ≠ "[]") : jResolvedEntry o p k = some (k, s) := by
  unfold jResolvedEntry
  rw [hs]
  simp [hbox]

theorem jUnresolvedEntry_of_some (o : String → JournalOracle) (p : Bool)
    (k s : String) (hs : (journalKeyStep (o k) k p).1 = some s)
    (hbox : s ≠ "[]") : jUnresolvedEntry o p k = none := by
  unfold jUnresolvedEntry
  rw [hs]
  simp [hbox]

theorem jResolvedEntry_of_none (o : String → JournalOracle) (p : Bool)
    (k : String) (hs : (journalKeyStep (o k) k p).1 = none) :
    jResolvedEntry o p k = none := by
  unfold jResolvedEntry
  rw [hs]

theorem jUnresolvedEntry_of_none (o : String → JournalOracle) (p : Bool)
    (k : String) (hs : (journalKeyStep (o k) k p).1 = none) :
    jUnresolvedEntry o p k = some (k, (none : Option String)) := by
  unfold jUnresolvedEntry
  rw [hs]

theorem rxivFates_mem (o : String → RxivOracle) (batch : List String)
    (fs : List (String × KeyFate)) (h : rxivFates o batch = Except.ok fs)
    (k : String) (hk : k ∈ batch) (f : KeyFate) (tr : List (RxStrategy × Bool))
    (hstep : rxivKeyStep (o k) k = Except.ok (f, tr)) : (k, f) ∈ fs := by
  induction batch generalizing fs with
  | nil => cases hk
  | cons a as ih =>
    unfold rxivFates at h
    rcases ha : rxivKeyStep (o a) a with _ | pa <;> rw [ha] at h
    · exact Except.noConfusion h
    · rcases hrest : rxivFates o as with _ | rest <;> rw [hrest] at h
      · exact Except.noConfusion h
      · have hfs : fs = (a, pa.1) :: rest := (Except.ok.injEq _ _ ▸ h).symm ▸ rfl
        rcases List.mem_cons.mp hk with hka | hkas
        · subst hka
          rw [ha] at hstep
          have hpa : pa = (f, tr) := Except.ok.inj hstep
          rw [hfs, hpa]
          exact List.mem_cons_self _ _
        · rw [hfs]
          exact List.mem_cons_of_mem _ (ih rest hrest hkas)

theorem rxivFates_all (o : String → RxivOracle) (batch : List String)
    (fs : List (String × KeyFate)) (h : rxivFates o batch = Except.ok fs) :
    ∀ p ∈ fs, ∃ tr, rxivKeyStep (o p.1) p.1 = Except.ok (p.2, tr) := by
  induction batch generalizing fs with
  | nil =>
    unfold rxivFates at h
    have : fs = [] := (Except.ok.inj h).symm
    rw [this]
    intro p hp
    cases hp
  | cons a as ih =>
    unfold rxivFates at h
    rcases ha : rxivKeyStep (o a) a with _ | pa <;> rw [ha] at h
    · exact Except.noConfusion h
    · rcases hrest : rxivFates o as with _ | rest <;> rw [hrest] at h
      · exact Except.noConfusion h
      · have hfs : fs = (a, pa.1) :: rest := (Except.ok.inj h).symm
        rw [hfs]
        intro p hp
        rcases List.mem_cons.mp hp with hpa | hpr
        · subst hpa
          exact ⟨pa.2, ha⟩
        · exact ih rest hrest p hpr

theorem rxDictEntry_fst (p : String × KeyFate) (pr : String × Option String)
    (h : rxDictEntry p = some pr) : pr.1 = p.1 := by
  unfold rxDictEntry at h
  rcases p with ⟨a, f⟩
  rcases f with s | _ | _ <;> simp at h <;> rw [← h]

theorem rxUnkEntry_fst (p : String × KeyFate) (pr : String × Option String)
    (h : rxUnkEntry p = some pr) : pr.1 = p.1 ∧ p.2 = KeyFate.drop := by
  unfold rxUnkEntry at h
  rcases p with ⟨a, f⟩
  rcases f with s | _ | _ <;> simp at h
  exact ⟨by rw [← h], rfl⟩

theorem rxDictEntry_ne_drop (p : String × KeyFate) (pr : String × Option String)
    (h : rxDictEntry p = some pr) : p.2 ≠ KeyFate.drop := by
  intro hd
  unfold rxDictEntry at h
  rw [hd] at h
  exact Option.noConfusion h

theorem rx_not_mem_unk (o : String → RxivOracle) (batch : List String)
    (fs : List (String × KeyFate)) (k : String) (f : KeyFate)
    (tr : List (RxStrategy × Bool)) (hf : rxivFates o batch = Except.ok fs)
    (hstep : rxivKeyStep (o k) k = Except.ok (f, tr)) (hne : f ≠ KeyFate.drop) :
    k ∉ (fs.filterMap rxUnkEntry).map Prod.fst := by
  intro hmem
  rcases List.mem_map.mp hmem with ⟨pr, hpr, heq⟩
  rcases List.mem_filterMap.mp hpr with ⟨p, hp, hu⟩
  rcases rxUnkEntry_fst p pr hu with ⟨hfst, hdrop⟩
  rcases rxivFates_all o batch fs hf p hp with ⟨tr2, hstep2⟩
  rw [hdrop] at hstep2
  have hpk : p.1 = k := by rw [← hfst, heq]
  rw [hpk, hstep] at hstep2
  have : (f, tr) = (KeyFate.drop, tr2) := Except.ok.inj hstep2
  exact hne (congrArg Prod.fst this)

theorem rx_not_mem_dict (o : String → RxivOracle) (batch : List String)
    (fs : List (String × KeyFate)) (k : String)
    (tr : List (RxStrategy × Bool)) (hf : rxivFates o batch = Except.ok fs)
    (hstep : rxivKeyStep (o k) k = Except.ok (KeyFate.drop, tr)) :
    k ∉ (fs.filterMap rxDictEntry).map Prod.fst := by
  intro hmem
  rcases List.mem_map.mp hmem with ⟨pr, hpr, heq⟩
  rcases List.mem_filterMap.mp hpr with ⟨p, hp, hd⟩
  have hfst : pr.1 = p.1 := rxDictEntry_fst p pr hd
  rcases rxivFates_all o batch fs hf p hp with ⟨tr2, hstep2⟩
  have hpk : p.1 = k := by rw [← hfst, heq]
  rw [hpk, hstep] at hstep2
  have hfeq : (KeyFate.drop, tr) = (p.2, tr2) := Except.ok.inj hstep2
  exact rxDictEntry_ne_drop p pr hd (congrArg Prod.fst hfeq).symm

/-! ## Claim C1 — resolved/unresolved partition -/

/-- Concrete service behaviour for the C1 counterexample: every external call
raises (both details fetches fail), so `get_rxiv_bioc` hits the bare
`continue` at line 350. -/
def c1FailOracle : RxivOracle where
  rxivPmidBio := Except.error ()
  rxivPmidMed := Except.error ()
  pmidOfKey := Except.error ()
  annStatus := fun _ => 404
  annBody := fun _ => ""
  detailsBio := Except.error ()
  detailsMed := Except.error ()
  statusOf := fun _ => Except.error ()
  publishedParse := fun _ => Except.error ()
  pmidOfDoi := fun _ => Except.error ()
  jatsOf := fun _ => Except.error ()
  convertOk := fun _ _ => Except.error ()

/-- C1 (counterexample): when strategies 1-3 fail and both details fetches
raise, `get_rxiv_bioc` returns with the input key still in the resolved
mapping bound to `None` and absent from the unresolved mapping — by the
claim's own proviso the key is then in neither mapping, refuting "every
input key appears in exactly one of the two returned mappings". -/
theorem C1_counterexample :
    get_rxiv_bioc (fun _ => c1FailOracle) ["10.1101/x"] =
      Except.ok ([("10.1101/x", (none : Option String))], []) := rfl

/-- C1 (amended): after `get_journal_publication_bioc`, every input key is in
exactly one of the two mappings; after `get_rxiv_bioc`, the same holds for
every key whose per-key processing did not end in the bare `continue` of
line 350 (the `KeyFate.skip` fate), while a skipped key remains in the
resolved mapping with value `None` and is absent from the unresolved
mapping. -/
theorem C1_partition :
    (∀ (o : String → JournalOracle) (batch : List String) (isPmid : Bool)
       (r : List (String × String)) (u : List (String × Option String)),
       get_journal_publication_bioc o batch isPmid = Except.ok (r, u) →
       ∀ k ∈ batch,
         (k ∈ r.map Prod.fst ∧ k ∉ u.map Prod.fst) ∨
         (k ∉ r.map Prod.fst ∧ (k, (none : Option String)) ∈ u)) ∧
    (∀ (o : String → RxivOracle) (batch : List String)
       (r u : List (String × Option String)),
       get_rxiv_bioc o batch = Except.ok (r, u) →
       ∀ k ∈ batch, ∀ (f : KeyFate) (tr : List (RxStrategy × Bool)),
         rxivKeyStep (o k) k = Except.ok (f, tr) →
         (∀ s, f = KeyFate.keep s → (k, some s) ∈ r ∧ k ∉ u.map Prod.fst) ∧
         (f = KeyFate.drop → k ∉ r.map Prod.fst ∧ (k, (none : Option String)) ∈ u) ∧
         (f = KeyFate.skip → (k, (none : Option String)) ∈ r ∧ k ∉ u.map Prod.fst)) := by
  constructor
  · intro o batch isPmid r u h k hk
    have hru : r = batch.filterMap (jResolvedEntry o isPmid) ∧
        u = batch.filterMap (jUnresolvedEntry o isPmid) := by
      unfold get_journal_publication_bioc at h
      have := Except.ok.inj h
      exact ⟨(congrArg Prod.fst this).symm, (congrArg Prod.snd this).symm⟩
    rcases hru with ⟨hr, hu⟩
    subst hr; subst hu
    rcases hs : (journalKeyStep (o k) k isPmid).1 with _ | s
    · right
      refine ⟨fst_not_mem_filterMap _ batch k (jResolvedEntry_fst o isPmid)
          (jResolvedEntry_of_none o isPmid k hs), ?_⟩
      exact List.mem_filterMap.mpr ⟨k, hk, jUnresolvedEntry_of_none o isPmid k hs⟩
    · left
      have hbox : s ≠ "[]" := by
        intro hbx
        exact journalKeyStep_fst_ne_box (o k) k isPmid (hbx ▸ hs)
      refine ⟨?_, fst_not_mem_filterMap _ batch k (jUnresolvedEntry_fst o isPmid)
          (jUnresolvedEntry_of_some o isPmid k s hs hbox)⟩
      exact List.mem_map.mpr ⟨(k, s),
        List.mem_filterMap.mpr ⟨k, hk, jResolvedEntry_of_some o isPmid k s hs hbox⟩, rfl⟩
  · intro o batch r u h k hk f tr hstep
    have hfs : ∃ fs, rxivFates o batch = Except.ok fs ∧
        r = fs.filterMap rxDictEntry ∧ u = fs.filterMap rxUnkEntry := by
      unfold get_rxiv_bioc at h
      rcases hh : rxivFates o batch with _ | fs <;> rw [hh] at h
      · exact Except.noConfusion h
      · have := Except.ok.inj h
        exact ⟨fs, rfl, (congrArg Prod.fst this).symm, (congrArg Prod.snd this).symm⟩
    rcases hfs with ⟨fs, hfates, hr, hu⟩
    subst hr; subst hu
    have hmem : (k, f) ∈ fs := rxivFates_mem o batch fs hfates k hk f tr hstep
    refine ⟨?_, ?_, ?_⟩
    · intro s hfk
      subst hfk
      refine ⟨List.mem_filterMap.mpr ⟨(k, KeyFate.keep s), hmem, rfl⟩, ?_⟩
      exact rx_not_mem_unk o batch fs k _ tr hfates hstep (by simp)
    · intro hfd
      subst hfd
      refine ⟨rx_not_mem_dict o batch fs k tr hfates hstep, ?_⟩
      exact List.mem_filterMap.mpr ⟨(k, KeyFate.drop), hmem, rfl⟩
    · intro hfk
      subst hfk
      refine ⟨List.mem_filterMap.mpr ⟨(k, KeyFate.skip), hmem, rfl⟩, ?_⟩
      exact rx_not_mem_unk o batch fs k _ tr hfates hstep (by simp)

/-- Concrete service behaviour for the C1 witness: details succeed with an
`'ok'` status but every annotation strategy and the JATS fallback fail, so
the key is dropped to the unresolved mapping. -/
def c1DropOracle : RxivOracle :=
  { c1FailOracle with
    detailsBio := Except.ok "D"
    statusOf := fun _ => Except.ok "ok" }

/-- C1 (witness): the amended partition theorem instantiated on a concrete
one-key preprint batch whose key is dropped to the unresolved mapping. -/
theorem C1_witness :
    "10.1101/x" ∉
      ([] : List (String × Option String)).map Prod.fst ∧
    ("10.1101/x", (none : Option String)) ∈
      [("10.1101/x", (none : Option String))] := by
  have h := (C1_partition.2 (fun _ => c1DropOracle)
    ["10.1101/x"] [] [("10.1101/x", (none : Option String))] rfl
    "10.1101/x" (List.mem_singleton.mpr rfl) KeyFate.drop
    [(RxStrategy.bioPmid, false), (RxStrategy.medPmid, false), (RxStrategy.genPmid, false),
     (RxStrategy.detailsLookup, true), (RxStrategy.pubDoiPmid, false),
     (RxStrategy.jatsFallback, false)] rfl).2.1 rfl
  exact h

/-! ## Claim C2 — the batch calls never raise -/

theorem detailsPhase_ne_raised (o : RxivOracle) (conv3 : Bool)
    (hst : ∀ d, ∃ stv, o.statusOf d = Except.ok stv) :
    detailsPhase o conv3 ≠ DetPhase.raised := by
  unfold detailsPhase
  rcases hb : o.detailsBio with _ | d
  · rcases hm : o.detailsMed with _ | d2 <;> simp
  · by_cases hd : d = ""
    · simp [hd]
    · rcases hst d with ⟨stv, hstv⟩
      by_cases hok : stv = "ok"
      · simp [hd, hstv, hok]
      · rcases hm : o.detailsMed with _ | d2 <;> simp [hd, hstv, hok, hm]

theorem rxivAfter3_isOk (o : RxivOracle) (key : String) (b3 : Option String)
    (tr3 : List (RxStrategy × Bool))
    (hst : ∀ d, ∃ stv, o.statusOf d = Except.ok stv) :
    exceptIsOk (rxivAfter3 o key b3 tr3) = true := by
  unfold rxivAfter3
  rcases hd : detailsPhase o b3.isSome with _ | _ | ⟨dF, conv4⟩
  · exact absurd hd (detailsPhase_ne_raised o b3.isSome hst)
  · simp [exceptIsOk]
  · simp only []
    split
    · simp [exceptIsOk]
    · split
      · simp [exceptIsOk]
      · simp [exceptIsOk]

theorem rxivKeyStep_isOk (o : RxivOracle) (key : String)
    (hst : ∀ d, ∃ stv, o.statusOf d = Except.ok stv) :
    exceptIsOk (rxivKeyStep o key) = true := by
  unfold rxivKeyStep
  rcases h3 : s1to3 o with ⟨b3, tr3⟩
  rcases b3 with _ | s
  · exact rxivAfter3_isOk o key none tr3 hst
  · by_cases hs : s = "" ∨ s = "[]"
    · simp only [hs, if_pos]
      exact rxivAfter3_isOk o key (some s) tr3 hst
    · simp [hs, exceptIsOk]

theorem rxivFates_isOk (o : String → RxivOracle) (batch : List String)
    (hst : ∀ k d, ∃ stv, (o k).statusOf d = Except.ok stv) :
    exceptIsOk (rxivFates o batch) = true := by
  induction batch with
  | nil => rfl
  | cons a as ih =>
    unfold rxivFates
    rcases ha : rxivKeyStep (o a) a with _ | pa
    · have := rxivKeyStep_isOk (o a) a (hst a)
      rw [ha] at this
      exact absurd this (by simp [exceptIsOk])
    · rcases hrest : rxivFates o as with _ | rest
      · rw [hrest] at ih
        exact absurd ih (by simp [exceptIsOk])
      · simp [exceptIsOk]

/-- Concrete service behaviour for the C2 counterexample: strategies 1-3
fail, the bioRxiv details fetch succeeds with a payload whose
`json.loads(details)['messages'][0]['status']` extraction raises (a
malformed or key-missing response body). -/
def c2BadStatusOracle : RxivOracle :=
  { c1FailOracle with detailsBio := Except.ok "BROKEN" }

/-- C2 (counterexample): with a malformed details payload the status
extraction at lines 338-339 of `get_rxiv_bioc` — which sits outside every
`try` block — raises, and the exception propagates out of the batch call, so
the call does not return a `(resolved, unresolved)` pair. -/
theorem C2_counterexample :
    get_rxiv_bioc (fun _ => c2BadStatusOracle) ["k"] = Except.error () := rfl

/-- C2 (amended): `get_journal_publication_bioc` never raises — every
fallible step of its per-identifier loop is inside a `try`, so for every
service behaviour it returns the `(resolved, unresolved)` pair.
`get_rxiv_bioc` returns the pair provided every successfully fetched details
payload admits the `messages[0].status` extraction (the one step of its loop
that sits outside every `try`); a payload on which that extraction raises
makes the whole batch call raise, as the counterexample shows. -/
theorem C2_no_raise :
    (∀ (o : String → JournalOracle) (batch : List String) (isPmid : Bool),
       exceptIsOk (get_journal_publication_bioc o batch isPmid) = true) ∧
    (∀ (o : String → RxivOracle) (batch : List String),
       (∀ k d, ∃ stv, (o k).statusOf d = Except.ok stv) →
       exceptIsOk (get_rxiv_bioc o batch) = true) := by
  constructor
  · intro o batch isPmid
    rfl
  · intro o batch hst
    unfold get_rxiv_bioc
    rcases h : rxivFates o batch with _ | fs
    · have := rxivFates_isOk o batch hst
      rw [h] at this
      exact absurd this (by simp [exceptIsOk])
    · simp [exceptIsOk]

/-- Concrete service behaviour for the C2 witness: details succeed and the
status extraction always succeeds. -/
def c2OkOracle : RxivOracle :=
  { c1FailOracle with
    detailsBio := Except.ok "D"
    statusOf := fun _ => Except.ok "ok"
    jatsOf := fun _ => Except.ok "J"
    convertOk := fun _ _ => Except.ok () }

/-- C2 (witness): the amended no-raise theorem instantiated on concrete
batches and service behaviours. -/
theorem C2_witness :
    exceptIsOk (get_journal_publication_bioc
      (fun _ => ⟨Except.error (), Except.error (), fun _ => 404, fun _ => ""⟩)
      ["10.1/a"] false) = true ∧
    exceptIsOk (get_rxiv_bioc (fun _ => c2OkOracle) ["10.1101/x"]) = true :=
  ⟨C2_no_raise.1 _ ["10.1/a"] false,
   C2_no_raise.2 _ ["10.1101/x"] (fun _ _ => ⟨"ok", rfl⟩)⟩

/-! ## Claim C3 — the preprint cascade -/

theorem s5attempt_ne_box (o : RxivOracle) (dF : String) :
    s5attempt o dF ≠ some "[]" := by
  unfold s5attempt
  rcases hp : o.publishedParse dF with _ | op
  · simp
  · rcases op with _ | p
    · simp
    · rcases hm : o.pmidOfDoi ("https://doi.org/" ++ p) with _ | pm
      · simp [hm]
      · rcases hg : get_pubtator_bioc_json (o.annStatus pm) (o.annBody pm) with _ | b
        · simp [hm, hg]
        · rcases b with _ | t
          · simp [hm, hg]
          · by_cases ht : t = "[]" <;> simp [hm, hg, ht]

theorem s6attempt_cases (o : RxivOracle) (key dF : String) :
    s6attempt o key dF = none ∨ s6attempt o key dF = some "converting" := by
  unfold s6attempt
  rcases hj : o.jatsOf dF with _ | jats
  · simp
  · rcases hc : o.convertOk jats ("../../data/scraper/rxiv/html/" ++
        get_doi_file_name (afterLastStr "doi.org/" key) ++ ".html") with _ | _
    · simp [hc]
    · simp [hc]

theorem no_true_mem {tr : List (RxStrategy × Bool)}
    (h : ∀ pr ∈ tr, pr.2 = false) (S : RxStrategy) : (S, true) ∉ tr := by
  intro hm
  exact Bool.noConfusion (h _ hm)

/-- Cascade behaviour of the post-strategy-3 continuation: the trace stays a
sub-sequence of the cascade order, an annotation strategy flagged as having
produced a non-empty document is the last attempt and its document is kept,
and a successful JATS fallback keeps the `"converting"` sentinel. -/
theorem rxivAfter3_cascade (o : RxivOracle) (key : String) (b3 : Option String)
    (tr3 : List (RxStrategy × Bool))
    (htr3 : ∀ pr ∈ tr3, pr.2 = false)
    (hsub : (tr3.map Prod.fst).Sublist
      [RxStrategy.bioPmid, RxStrategy.medPmid, RxStrategy.genPmid])
    (f : KeyFate) (tr : List (RxStrategy × Bool))
    (h : rxivAfter3 o key b3 tr3 = Except.ok (f, tr)) :
    (tr.map Prod.fst).Sublist rxCascadeOrder ∧
    (∀ S, isAnnStrategy S = true → (S, true) ∈ tr →
       tr.getLast? = some (S, true) ∧
       ∃ s, f = KeyFate.keep s ∧ s ≠ "" ∧ s ≠ "[]") ∧
    ((RxStrategy.jatsFallback, true) ∈ tr → f = KeyFate.keep "converting") := by
  have horder : rxCascadeOrder =
      [RxStrategy.bioPmid, RxStrategy.medPmid, RxStrategy.genPmid] ++
      [RxStrategy.detailsLookup, RxStrategy.pubDoiPmid, RxStrategy.jatsFallback] := rfl
  unfold rxivAfter3 at h
  rcases hd : detailsPhase o b3.isSome with _ | _ | ⟨dF, conv4⟩ <;> rw [hd] at h
  · exact absurd h (by simp)
  · -- skipped: f = skip, tr = tr3 ++ [(detailsLookup, false)]
    have hin := Except.ok.inj h
    have hf : KeyFate.skip = f := congrArg Prod.fst hin
    have htr : tr3 ++ [(RxStrategy.detailsLookup, false)] = tr := congrArg Prod.snd hin
    subst hf; subst htr
    refine ⟨?_, ?_, ?_⟩
    · rw [horder, List.map_append]
      exact List.Sublist.append hsub (by decide)
    · intro S _ hmem
      rcases List.mem_append.mp hmem with hm3 | hm1
      · exact absurd hm3 (no_true_mem htr3 S)
      · simp at hm1
    · intro hmem
      rcases List.mem_append.mp hmem with hm3 | hm1
      · exact absurd hm3 (no_true_mem htr3 _)
      · simp at hm1
  · -- got dF conv4
    simp only [] at h
    cases conv4 with
    | true =>
      by_cases hb3 : b3 = some "[]"
      · -- degenerate guard via bioc == "[]"; JATS fallback runs
        simp only [hb3, if_true, or_true] at h
        rcases s6attempt_cases o key dF with h6 | h6 <;> rw [h6] at h
        · -- fallback failed: drop
          have hin := Except.ok.inj h
          have hf : KeyFate.drop = f := congrArg Prod.fst hin
          have htr : (tr3 ++ [(RxStrategy.detailsLookup, true)]) ++
              [(RxStrategy.jatsFallback, false)] = tr := congrArg Prod.snd hin
          subst hf; subst htr
          refine ⟨?_, ?_, ?_⟩
          · rw [horder, List.append_assoc, List.map_append]
            exact List.Sublist.append hsub (by decide)
          · intro S hS hmem
            rcases List.mem_append.mp hmem with hm | hm1
            · rcases List.mem_append.mp hm with hm3 | hm0
              · exact absurd hm3 (no_true_mem htr3 S)
              · have hSd : S = RxStrategy.detailsLookup :=
                  congrArg Prod.fst (List.mem_singleton.mp hm0)
                rw [hSd] at hS
                exact absurd hS (by decide)
            · exact Bool.noConfusion (congrArg Prod.snd (List.mem_singleton.mp hm1))
          · intro hmem
            rcases List.mem_append.mp hmem with hm | hm1
            · rcases List.mem_append.mp hm with hm3 | hm0
              · exact absurd hm3 (no_true_mem htr3 _)
              · exact absurd (congrArg Prod.fst (List.mem_singleton.mp hm0)) (by decide)
            · exact Bool.noConfusion (congrArg Prod.snd (List.mem_singleton.mp hm1))
        · -- fallback succeeded: keep "converting"
          have hin := Except.ok.inj h
          have hf : KeyFate.keep "converting" = f := by
            have := congrArg Prod.fst hin
            simpa using this
          have htr : (tr3 ++ [(RxStrategy.detailsLookup, true)]) ++
              [(RxStrategy.jatsFallback, true)] = tr := congrArg Prod.snd hin
          subst htr
          refine ⟨?_, ?_, ?_⟩
          · rw [horder, List.append_assoc, List.map_append]
            exact List.Sublist.append hsub (by decide)
          · intro S hS hmem
            rcases List.mem_append.mp hmem with hm | hm1
            · rcases List.mem_append.mp hm with hm3 | hm0
              · exact absurd hm3 (no_true_mem htr3 S)
              · have hSd : S = RxStrategy.detailsLookup :=
                  congrArg Prod.fst (List.mem_singleton.mp hm0)
                rw [hSd] at hS
                exact absurd hS (by decide)
            · have hSj : S = RxStrategy.jatsFallback :=
                congrArg Prod.fst (List.mem_singleton.mp hm1)
              subst hSj
              exact ⟨List.getLast?_concat _, "converting", hf.symm, by decide, by decide⟩
          · intro _
            exact hf.symm
      · -- normal guard: converted, no fallback; keep b3 as is
        rw [if_pos rfl] at h
        rw [if_neg (by simp [hb3])] at h
        rcases b3 with _ | s
        · have hin := Except.ok.inj h
          have hf : KeyFate.drop = f := congrArg Prod.fst hin
          have htr : tr3 ++ [(RxStrategy.detailsLookup, true)] = tr := congrArg Prod.snd hin
          subst hf; subst htr
          refine ⟨?_, ?_, ?_⟩
          · rw [horder, List.map_append]
            exact List.Sublist.append hsub (by decide)
          · intro S hS hmem
            rcases List.mem_append.mp hmem with hm3 | hm0
            · exact absurd hm3 (no_true_mem htr3 S)
            · have hSd : S = RxStrategy.detailsLookup :=
                congrArg Prod.fst (List.mem_singleton.mp hm0)
              rw [hSd] at hS
              exact absurd hS (by decide)
          · intro hmem
            rcases List.mem_append.mp hmem with hm3 | hm0
            · exact absurd hm3 (no_true_mem htr3 _)
            · exact absurd (congrArg Prod.fst (List.mem_singleton.mp hm0)) (by decide)
        · have hsbox : ¬s = "[]" := fun hc => hb3 (by rw [hc])
          have hin := Except.ok.inj h
          have hf : KeyFate.keep s = f := by
            have := congrArg Prod.fst hin
            simpa [hsbox] using this
          have htr : tr3 ++ [(RxStrategy.detailsLookup, true)] = tr := by
            have := congrArg Prod.snd hin
            simpa using this
          subst hf; subst htr
          refine ⟨?_, ?_, ?_⟩
          · rw [horder, List.map_append]
            exact List.Sublist.append hsub (by decide)
          · intro S hS hmem
            rcases List.mem_append.mp hmem with hm3 | hm0
            · exact absurd hm3 (no_true_mem htr3 S)
            · have hSd : S = RxStrategy.detailsLookup :=
                congrArg Prod.fst (List.mem_singleton.mp hm0)
              rw [hSd] at hS
              exact absurd hS (by decide)
          · intro hmem
            rcases List.mem_append.mp hmem with hm3 | hm0
            · exact absurd hm3 (no_true_mem htr3 _)
            · exact absurd (congrArg Prod.fst (List.mem_singleton.mp hm0)) (by decide)
    | false =>
      rw [if_neg (fun hc => Bool.noConfusion hc)] at h
      rcases h5 : s5attempt o dF with _ | t <;> rw [h5] at h
      · -- strategy 5 failed; JATS fallback runs
        rw [if_pos (Or.inl rfl)] at h
        rcases s6attempt_cases o key dF with h6 | h6 <;> rw [h6] at h
        · have hin := Except.ok.inj h
          have hf : KeyFate.drop = f := congrArg Prod.fst hin
          have htr : ((tr3 ++ [(RxStrategy.detailsLookup, true)]) ++
              [(RxStrategy.pubDoiPmid, false)]) ++
              [(RxStrategy.jatsFallback, false)] = tr := congrArg Prod.snd hin
          subst hf; subst htr
          refine ⟨?_, ?_, ?_⟩
          · rw [horder, List.append_assoc, List.append_assoc, List.map_append]
            exact List.Sublist.append hsub (by decide)
          · intro S hS hmem
            rcases List.mem_append.mp hmem with hm | hm1
            · rcases List.mem_append.mp hm with hm' | hm0
              · rcases List.mem_append.mp hm' with hm3 | hmd
                · exact absurd hm3 (no_true_mem htr3 S)
                · have hSd : S = RxStrategy.detailsLookup :=
                    congrArg Prod.fst (List.mem_singleton.mp hmd)
                  rw [hSd] at hS
                  exact absurd hS (by decide)
              · exact Bool.noConfusion (congrArg Prod.snd (List.mem_singleton.mp hm0))
            · exact Bool.noConfusion (congrArg Prod.snd (List.mem_singleton.mp hm1))
          · intro hmem
            rcases List.mem_append.mp hmem with hm | hm1
            · rcases List.mem_append.mp hm with hm' | hm0
              · rcases List.mem_append.mp hm' with hm3 | hmd
                · exact absurd hm3 (no_true_mem htr3 _)
                · exact absurd (congrArg Prod.fst (List.mem_singleton.mp hmd)) (by decide)
              · exact Bool.noConfusion (congrArg Prod.snd (List.mem_singleton.mp hm0))
            · exact Bool.noConfusion (congrArg Prod.snd (List.mem_singleton.mp hm1))
        · have hin := Except.ok.inj h
          have hf : KeyFate.keep "converting" = f := by
            have := congrArg Prod.fst hin
            simpa using this
          have htr : ((tr3 ++ [(RxStrategy.detailsLookup, true)]) ++
              [(RxStrategy.pubDoiPmid, false)]) ++
              [(RxStrategy.jatsFallback, true)] = tr := congrArg Prod.snd hin
          subst htr
          refine ⟨?_, ?_, ?_⟩
          · rw [horder, List.append_assoc, List.append_assoc, List.map_append]
            exact List.Sublist.append hsub (by decide)
          · intro S hS hmem
            rcases List.mem_append.mp hmem with hm | hm1
            · rcases List.mem_append.mp hm with hm' | hm0
              · rcases List.mem_append.mp hm' with hm3 | hmd
                · exact absurd hm3 (no_true_mem htr3 S)
                · have hSd : S = RxStrategy.detailsLookup :=
                    congrArg Prod.fst (List.mem_singleton.mp hmd)
                  rw [hSd] at hS
                  exact absurd hS (by decide)
              · exact Bool.noConfusion (congrArg Prod.snd (List.mem_singleton.mp hm0))
            · have hSj : S = RxStrategy.jatsFallback :=
                congrArg Prod.fst (List.mem_singleton.mp hm1)
              subst hSj
              exact ⟨List.getLast?_concat _, "converting", hf.symm, by decide, by decide⟩
          · intro _
            exact hf.symm
      · -- strategy 5 produced a document t (t ≠ "[]"); it is terminal
        have htbox : ¬t = "[]" := fun hc => s5attempt_ne_box o dF (by rw [h5, hc])
        rw [if_neg (by simp [htbox])] at h
        have hin := Except.ok.inj h
        have hf : KeyFate.keep t = f := by
          have := congrArg Prod.fst hin
          simpa [htbox] using this
        have htr : (tr3 ++ [(RxStrategy.detailsLookup, true)]) ++
            [(RxStrategy.pubDoiPmid, nonEmptyDoc (some t))] = tr := by
          have := congrArg Prod.snd hin
          simpa using this
        subst hf; subst htr
        refine ⟨?_, ?_, ?_⟩
        · rw [horder, List.append_assoc, List.map_append]
          refine List.Sublist.append hsub ?_
          simp only [List.map_cons, List.map_nil, List.cons_append, List.nil_append]
          exact (by decide : ([RxStrategy.detailsLookup, RxStrategy.pubDoiPmid] :
            List RxStrategy).Sublist [RxStrategy.detailsLookup, RxStrategy.pubDoiPmid,
              RxStrategy.jatsFallback])
        · intro S hS hmem
          rcases List.mem_append.mp hmem with hm | hm1
          · rcases List.mem_append.mp hm with hm3 | hmd
            · exact absurd hm3 (no_true_mem htr3 S)
            · have hSd : S = RxStrategy.detailsLookup :=
                congrArg Prod.fst (List.mem_singleton.mp hmd)
              rw [hSd] at hS
              exact absurd hS (by decide)
          · have hpair := List.mem_singleton.mp hm1
            have hSp : S = RxStrategy.pubDoiPmid := congrArg Prod.fst hpair
            have hflag : true = nonEmptyDoc (some t) := congrArg Prod.snd hpair
            have hts : ¬t = "" := by
              intro hc
              rw [hc] at hflag
              exact Bool.noConfusion hflag
            subst hSp
            rw [hflag]
            exact ⟨List.getLast?_concat _, t, rfl, hts, htbox⟩
        · intro hmem
          rcases List.mem_append.mp hmem with hm | hm1
          · rcases List.mem_append.mp hm with hm3 | hmd
            · exact absurd hm3 (no_true_mem htr3 _)
            · exact absurd (congrArg Prod.fst (List.mem_singleton.mp hmd)) (by decide)
          · exact RxStrategy.noConfusion (congrArg Prod.fst (List.mem_singleton.mp hm1))

/-- Characterization of strategies 1-3: the trace follows the order
bioRxiv-PMID, medRxiv-PMID, generic-PMID; when no strategy produced a
non-empty document every flag is false; when one did, it is the last entry
of the trace and the only true flag. -/
theorem s1to3_spec (o : RxivOracle) (b3 : Option String)
    (tr3 : List (RxStrategy × Bool)) (h : s1to3 o = (b3, tr3)) :
    (tr3.map Prod.fst).Sublist
      [RxStrategy.bioPmid, RxStrategy.medPmid, RxStrategy.genPmid] ∧
    (nonEmptyDoc b3 = false → ∀ pr ∈ tr3, pr.2 = false) ∧
    (∀ s, b3 = some s → nonEmptyDoc b3 = true →
      ∃ X, (X = RxStrategy.bioPmid ∨ X = RxStrategy.medPmid ∨ X = RxStrategy.genPmid) ∧
        tr3.getLast? = some (X, true) ∧ ∀ S, (S, true) ∈ tr3 → S = X) := by
  unfold s1to3 at h
  rcases ha1 : annAttempt o.rxivPmidBio o.annStatus o.annBody with _ | t1 <;> rw [ha1] at h
  · rcases ha2 : annAttempt o.rxivPmidMed o.annStatus o.annBody with _ | t2 <;> rw [ha2] at h
    · rcases ha3 : annAttempt o.pmidOfKey o.annStatus o.annBody with _ | t3 <;> rw [ha3] at h
      · -- every strategy failed
        cases h
        refine ⟨by decide, ?_, ?_⟩
        · intro _ pr hpr
          simp only [List.mem_cons, List.not_mem_nil, or_false] at hpr
          rcases hpr with h1 | h1 | h1 <;> rw [h1]
        · intro s hb3 _
          exact Option.noConfusion hb3
      · -- generic-PMID strategy produced t3
        cases h
        refine ⟨by simp only [List.map_cons, List.map_nil]; decide, ?_, ?_⟩
        · intro hfalse pr hpr
          simp only [List.mem_cons, List.not_mem_nil, or_false] at hpr
          rcases hpr with h1 | h1 | h1 <;> rw [h1]
          exact hfalse
        · intro s _ htrue
          refine ⟨RxStrategy.genPmid, Or.inr (Or.inr rfl), ?_, ?_⟩
          · rw [htrue]
            decide
          · intro S hS
            simp only [List.mem_cons, List.not_mem_nil, or_false] at hS
            rcases hS with h1 | h1 | h1
            · exact Bool.noConfusion (congrArg Prod.snd h1)
            · exact Bool.noConfusion (congrArg Prod.snd h1)
            · exact congrArg Prod.fst h1
    · -- medRxiv-PMID strategy produced t2
      cases h
      refine ⟨by simp only [List.map_cons, List.map_nil]; decide, ?_, ?_⟩
      · intro hfalse pr hpr
        simp only [List.mem_cons, List.not_mem_nil, or_false] at hpr
        rcases hpr with h1 | h1 <;> rw [h1]
        exact hfalse
      · intro s _ htrue
        refine ⟨RxStrategy.medPmid, Or.inr (Or.inl rfl), ?_, ?_⟩
        · rw [htrue]
          decide
        · intro S hS
          simp only [List.mem_cons, List.not_mem_nil, or_false] at hS
          rcases hS with h1 | h1
          · exact Bool.noConfusion (congrArg Prod.snd h1)
          · exact congrArg Prod.fst h1
  · -- bioRxiv-PMID strategy produced t1
    cases h
    refine ⟨by simp only [List.map_cons, List.map_nil]; decide, ?_, ?_⟩
    · intro hfalse pr hpr
      rw [List.mem_singleton.mp hpr]
      exact hfalse
    · intro s _ htrue
      refine ⟨RxStrategy.bioPmid, Or.inl rfl, ?_, ?_⟩
      · rw [htrue]
        decide
      · intro S hS
        exact congrArg Prod.fst (List.mem_singleton.mp hS)

/-- C3: in `get_rxiv_bioc`, the per-key strategies are attempted strictly in
the order bioRxiv-PMID, medRxiv-PMID, generic-PMID, details-lookup,
published-DOI-PMID, JATS-fallback (the attempt trace is a sub-sequence of
`rxCascadeOrder`); the first strategy producing a non-empty annotation
document is terminal (its entry is the last of the trace and its document is
the key's kept value); and a key whose document comes from the terminal
fallback alone is marked with the `FALLBACK_PENDING` sentinel
`"converting"`. -/
theorem C3_cascade :
    ∀ (o : RxivOracle) (key : String) (f : KeyFate)
      (tr : List (RxStrategy × Bool)),
      rxivKeyStep o key = Except.ok (f, tr) →
      (tr.map Prod.fst).Sublist rxCascadeOrder ∧
      (∀ S, isAnnStrategy S = true → (S, true) ∈ tr →
         tr.getLast? = some (S, true) ∧
         ∃ s, f = KeyFate.keep s ∧ s ≠ "" ∧ s ≠ "[]") ∧
      ((RxStrategy.jatsFallback, true) ∈ tr → f = KeyFate.keep "converting") := by
  intro o key f tr h
  unfold rxivKeyStep at h
  rcases h3 : s1to3 o with ⟨b3, tr3⟩
  rw [h3] at h
  have hspec := s1to3_spec o b3 tr3 h3
  rcases b3 with _ | s
  · have h' : rxivAfter3 o key none tr3 = Except.ok (f, tr) := h
    exact rxivAfter3_cascade o key none tr3 (hspec.2.1 rfl) hspec.1 f tr h'
  · have h' : (if s = "" ∨ s = "[]" then rxivAfter3 o key (some s) tr3
        else Except.ok (KeyFate.keep s, tr3)) = Except.ok (f, tr) := h
    by_cases hs : s = "" ∨ s = "[]"
    · rw [if_pos hs] at h'
      have hflag : nonEmptyDoc (some s) = false := by
        rcases hs with h1 | h1 <;> simp [nonEmptyDoc, h1]
      exact rxivAfter3_cascade o key (some s) tr3 (hspec.2.1 hflag) hspec.1 f tr h'
    · rw [if_neg hs] at h'
      have hin := Except.ok.inj h'
      have hf : KeyFate.keep s = f := congrArg Prod.fst hin
      have htr : tr3 = tr := congrArg Prod.snd hin
      subst hf; subst htr
      rcases not_or.mp hs with ⟨hs1, hs2⟩
      have hne : nonEmptyDoc (some s) = true := by
        simp [nonEmptyDoc, hs1, hs2]
      rcases hspec.2.2 s rfl hne with ⟨X, hX, hlast, hall⟩
      refine ⟨List.Sublist.trans hspec.1 (by decide), ?_, ?_⟩
      · intro S _ hmem
        have hSX := hall S hmem
        subst hSX
        exact ⟨hlast, s, rfl, hs1, hs2⟩
      · intro hmem
        have hjX := hall _ hmem
        rcases hX with h1 | h1 | h1 <;> rw [h1] at hjX <;>
          exact RxStrategy.noConfusion hjX

/-- Concrete service behaviour for the C3 witness: strategies 1-5 fail, the
details lookup succeeds with `'ok'` status, and the JATS fallback succeeds,
so the full six-strategy trace appears in cascade order and the key is
marked `"converting"`. -/
def c3FallbackOracle : RxivOracle :=
  { c1FailOracle with
    detailsBio := Except.ok "D"
    statusOf := fun _ => Except.ok "ok"
    jatsOf := fun _ => Except.ok "J"
    convertOk := fun _ _ => Except.ok () }

/-- C3 (witness): the cascade theorem instantiated on a run in which all six
strategies are attempted in order and the fallback succeeds. -/
theorem C3_witness :
    ([(RxStrategy.bioPmid, false), (RxStrategy.medPmid, false),
      (RxStrategy.genPmid, false), (RxStrategy.detailsLookup, true),
      (RxStrategy.pubDoiPmid, false), (RxStrategy.jatsFallback, true)].map
        Prod.fst).Sublist rxCascadeOrder ∧
    KeyFate.keep "converting" = KeyFate.keep "converting" := by
  have h := C3_cascade c3FallbackOracle "https://doi.org/10.1101/x"
    (KeyFate.keep "converting")
    [(RxStrategy.bioPmid, false), (RxStrategy.medPmid, false),
     (RxStrategy.genPmid, false), (RxStrategy.detailsLookup, true),
     (RxStrategy.pubDoiPmid, false), (RxStrategy.jatsFallback, true)] rfl
  exact ⟨h.1, h.2.2 (by decide)⟩

/-! ## Claim C4 — empty annotation collection is absent, not an error -/

/-- C4: when the annotation endpoint answers with success status and the
empty collection `'[]'`, `get_pubtator_bioc_json` returns the absent value
`none` instead of raising; and the caller `get_journal_publication_bioc`
routes such a key to the next fallback strategy (the alternate resolver is
tried), exactly as for an absent annotation. -/
theorem C4_empty_is_absent :
    get_pubtator_bioc_json 200 "[]" = Except.ok none ∧
    (∀ (o : JournalOracle) (key p : String), o.pmidOfKey = Except.ok p →
       o.annStatus p = 200 → o.annBody p = "[]" →
       (journalKeyStep o key false).2 = true ∧
       (journalKeyStep o key false).1 =
         annAttempt o.doi2pmidOfKey o.annStatus o.annBody) := by
  refine ⟨rfl, ?_⟩
  intro o key p hp hs hb
  have hprimary : annAttempt (if false then Except.ok key else o.pmidOfKey)
      o.annStatus o.annBody = none := by
    simp [annAttempt, hp, get_pubtator_bioc_json, hs, hb]
  unfold journalKeyStep
  rw [hprimary]
  exact ⟨rfl, rfl⟩

/-- Concrete service behaviour for the C4 witness: the identifier resolves
to a PMID whose annotation response is success with the empty collection. -/
def c4Oracle : JournalOracle where
  pmidOfKey := Except.ok "1"
  doi2pmidOfKey := Except.error ()
  annStatus := fun _ => 200
  annBody := fun _ => "[]"

/-- C4 (witness): the theorem instantiated on a concrete oracle. -/
theorem C4_witness : (journalKeyStep c4Oracle "10.1/a" false).2 = true :=
  (C4_empty_is_absent.2 c4Oracle "10.1/a" "1" rfl rfl rfl).1

/-! ## Claim C5 — alternate resolver strategy in the published-paper loop -/

theorem journal_ru (o : String → JournalOracle) (batch : List String)
    (isPmid : Bool) (r : List (String × String))
    (u : List (String × Option String))
    (h : get_journal_publication_bioc o batch isPmid = Except.ok (r, u)) :
    r = batch.filterMap (jResolvedEntry o isPmid) ∧
    u = batch.filterMap (jUnresolvedEntry o isPmid) := by
  unfold get_journal_publication_bioc at h
  have := Except.ok.inj h
  exact ⟨(congrArg Prod.fst this).symm, (congrArg Prod.snd this).symm⟩

/-- C5: in `get_journal_publication_bioc`, for every key whose primary
resolution-plus-annotation attempt fails or returns absent, the alternate
resolver (`doi2pmid`) is tried with a second annotation fetch; if that too
yields nothing the key goes to the unresolved mapping (value `None`) and is
removed from the resolved mapping, otherwise the fetched document is placed
in the resolved mapping. -/
theorem C5_alternate_resolver :
    ∀ (o : String → JournalOracle) (batch : List String) (isPmid : Bool)
      (r : List (String × String)) (u : List (String × Option String)),
      get_journal_publication_bioc o batch isPmid = Except.ok (r, u) →
      ∀ k ∈ batch,
        annAttempt (if isPmid then Except.ok k else (o k).pmidOfKey)
            (o k).annStatus (o k).annBody = none →
        (journalKeyStep (o k) k isPmid).2 = true ∧
        (annAttempt (o k).doi2pmidOfKey (o k).annStatus (o k).annBody = none →
           (k, (none : Option String)) ∈ u ∧ k ∉ r.map Prod.fst) ∧
        (∀ s,
           annAttempt (o k).doi2pmidOfKey (o k).annStatus (o k).annBody = some s →
           (k, s) ∈ r ∧ k ∉ u.map Prod.fst) := by
  intro o batch isPmid r u h k hk hprim
  rcases journal_ru o batch isPmid r u h with ⟨hr, hu⟩
  subst hr; subst hu
  have hstep : journalKeyStep (o k) k isPmid =
      (annAttempt (o k).doi2pmidOfKey (o k).annStatus (o k).annBody, true) := by
    unfold journalKeyStep
    rw [hprim]
  refine ⟨by rw [hstep], ?_, ?_⟩
  · intro halt
    have hnone : (journalKeyStep (o k) k isPmid).1 = none := by
      rw [hstep, halt]
    exact ⟨List.mem_filterMap.mpr ⟨k, hk, jUnresolvedEntry_of_none o isPmid k hnone⟩,
      fst_not_mem_filterMap _ batch k (jResolvedEntry_fst o isPmid)
        (jResolvedEntry_of_none o isPmid k hnone)⟩
  · intro s halt
    have hsome : (journalKeyStep (o k) k isPmid).1 = some s := by
      rw [hstep, halt]
    have hbox : s ≠ "[]" := fun hc =>
      annAttempt_ne_box (o k).doi2pmidOfKey (o k).annStatus (o k).annBody (hc ▸ halt)
    exact ⟨List.mem_filterMap.mpr ⟨k, hk,
        jResolvedEntry_of_some o isPmid k s hsome hbox⟩,
      fst_not_mem_filterMap _ batch k (jUnresolvedEntry_fst o isPmid)
        (jUnresolvedEntry_of_some o isPmid k s hsome hbox)⟩

/-- Concrete service behaviour for the C5 witness (the spec's end-to-end
empty-annotation test): the primary resolution succeeds but every annotation
response is the empty collection, and the alternate resolver tool fails; the
key must land in the unresolved mapping. -/
def c5Oracle : JournalOracle where
  pmidOfKey := Except.ok "123"
  doi2pmidOfKey := Except.error ()
  annStatus := fun _ => 200
  annBody := fun _ => "[]"

/-- C5 (witness): the theorem instantiated on the spec's end-to-end scenario
`resolved == {}`, `unresolved == {"10.1/abc": absent}`. -/
theorem C5_witness :
    ("10.1/abc", (none : Option String)) ∈
      [("10.1/abc", (none : Option String))] ∧
    "10.1/abc" ∉ (([] : List (String × String)).map Prod.fst) :=
  (C5_alternate_resolver (fun _ => c5Oracle) ["10.1/abc"] false []
      [("10.1/abc", (none : Option String))] rfl "10.1/abc"
      (List.mem_singleton.mpr rfl) rfl).2.1 rfl

/-! ## Claim C6 — filename derivation for DOI links -/

/-- C6: for every key on which the DOI-link pattern matches, the derived
filename is the text after the (last) resolver-host separator with every
`/` replaced by `_` (and `.` left unchanged by the replacement map); in
particular the DOI link `https://doi.org/10.1101/2020.01.01.900000` derives
the filename `10.1101_2020.01.01.900000`. -/
theorem C6_doi_file_name :
    (∀ key : String, doiSearch key.data = true →
       get_doi_file_name key = replaceSlash (afterLastStr "doi.org/" key)) ∧
    slashToU '/' = '_' ∧ (∀ c : Char, ¬c = '/' → slashToU c = c) ∧
    get_doi_file_name "https://doi.org/10.1101/2020.01.01.900000" =
      "10.1101_2020.01.01.900000" := by
  refine ⟨?_, rfl, ?_, by decide⟩
  · intro key h
    simp [get_doi_file_name, h]
  · intro c hc
    simp [slashToU, hc]

/-- C6 (witness): the filename theorem instantiated on a concrete DOI link. -/
theorem C6_witness :
    doiSearch "https://doi.org/10.1/ab".data = true ∧
    get_doi_file_name "https://doi.org/10.1/ab" =
      replaceSlash (afterLastStr "doi.org/" "https://doi.org/10.1/ab") :=
  ⟨by decide, C6_doi_file_name.1 "https://doi.org/10.1/ab" (by decide)⟩

/-! ## Claim C7 — rate limiting -/

/-- C7 (counterexample): a fixed-window limiter with budget 3 calls / 1000 ms
(the annotation-endpoint class) admits 5 dispatches inside the sliding
1-second window `[980, 1980)` when 10 sequential calls are issued at the
request times below (each request is made after the previous dispatch), so
"never more than 3 dispatches within any 1-second sliding window" fails. -/
theorem C7_counterexample :
    rlRun 3 1000 ⟨0, 0⟩ [0, 980, 990, 995, 1001, 1002, 3000, 3001, 3002, 3003] =
      [0, 980, 990, 1000, 1001, 1002, 3000, 3001, 3002, 4000] ∧
    ((rlRun 3 1000 ⟨0, 0⟩
        [0, 980, 990, 995, 1001, 1002, 3000, 3001, 3002, 3003]).filter
          (fun d => 980 ≤ d && d < 1980)).length = 5 := ⟨rfl, rfl⟩

/-- C7 (amended): each service class carries its own fixed budget —
annotation endpoint 3/s, ID-conversion endpoint 3/s, preprint-details
endpoint 1/s, reverse DOI lookup 3/s — read off the decorators; acquiring
never fails, it only delays (the dispatch time is at least the request
time); and the limiter's bound is per fixed window, not per sliding window:
the in-window dispatch counter never exceeds the budget. -/
theorem C7_budget :
    (get_pubtator_bioc_json_rate = (3, 1) ∧ get_pmid_rate = (3, 1) ∧
     get_rxiv_details_rate = (1, 1) ∧ get_doi_rate = (3, 1)) ∧
    (∀ (n period : Nat) (s : RLState) (t : Nat), t ≤ (rlAcquire n period s t).2) ∧
    (∀ (n period : Nat) (s : RLState) (t : Nat), 1 ≤ n → s.used ≤ n →
       ((rlAcquire n period s t).1).used ≤ n) := by
  refine ⟨⟨rfl, rfl, rfl, rfl⟩, ?_, ?_⟩
  · intro n period s t
    unfold rlAcquire
    split_ifs with h1 h2
    · exact le_refl t
    · exact le_refl t
    · omega
  · intro n period s t hn hs
    unfold rlAcquire
    split_ifs with h1 h2
    · simpa using hn
    · simp only []
      omega
    · simpa using hn

/-- C7 (witness): the budget theorem instantiated on a saturated window. -/
theorem C7_witness :
    5 ≤ (rlAcquire 3 1000 ⟨0, 3⟩ 5).2 ∧
    ((rlAcquire 3 1000 ⟨0, 3⟩ 5).1).used ≤ 3 :=
  ⟨C7_budget.2.1 3 1000 ⟨0, 3⟩ 5,
   C7_budget.2.2 3 1000 ⟨0, 3⟩ 5 (by decide) (by decide)⟩

/-! ## Claim C8 — DOI normalization before requests -/

/-- C8 (counterexample): the input `doi.org/10.1/x` does not carry the
resolver-host prefix `https://doi.org/`, yet `get_pmid` does not use it
unchanged: the value embedded in the request URL is `10.1/x`, because the
source keys on substring containment of `doi.org/`, not on the prefix. -/
theorem C8_counterexample :
    "https://doi.org/".data.isPrefixOf "doi.org/10.1/x".data = false ∧
    get_pmid_url "doi.org/10.1/x" = pmidApiBase ++ "10.1/x" ∧
    get_rxiv_details_url "doi.org/10.1/x" true =
      "https://api.biorxiv.org/details/biorxiv/" ++ "10.1/x" ∧
    ("10.1/x" : String) ≠ "doi.org/10.1/x" :=
  ⟨by decide, rfl, rfl, by decide⟩

/-- C8 (amended): `get_pmid` and `get_rxiv_details` both apply the same
normalization before building the request URL: when the identifier contains
`doi.org/` anywhere (in particular when it carries the resolver-host
prefix), the portion after the last `doi.org/` is the value embedded in the
URL; an identifier not containing `doi.org/` at all is used unchanged. -/
theorem C8_normalize :
    ∀ doi : String,
      (hasSubstrStr "doi.org/" doi = true →
         get_pmid_url doi = pmidApiBase ++ afterLastStr "doi.org/" doi ∧
         get_rxiv_details_url doi true =
           "https://api.biorxiv.org/details/biorxiv/" ++ afterLastStr "doi.org/" doi ∧
         get_rxiv_details_url doi false =
           "https://api.medrxiv.org/details/medrxiv/" ++ afterLastStr "doi.org/" doi) ∧
      (hasSubstrStr "doi.org/" doi = false →
         get_pmid_url doi = pmidApiBase ++ doi ∧
         get_rxiv_details_url doi true =
           "https://api.biorxiv.org/details/biorxiv/" ++ doi ∧
         get_rxiv_details_url doi false =
           "https://api.medrxiv.org/details/medrxiv/" ++ doi) := by
  intro doi
  constructor
  · intro h
    refine ⟨?_, ?_, ?_⟩ <;>
      simp [get_pmid_url, get_rxiv_details_url, normalizeDoi, h]
  · intro h
    refine ⟨?_, ?_, ?_⟩ <;>
      simp [get_pmid_url, get_rxiv_details_url, normalizeDoi, h]

/-- C8 (witness): the normalization theorem instantiated on a
prefix-carrying DOI link and on a bare DOI suffix. -/
theorem C8_witness :
    hasSubstrStr "doi.org/" "https://doi.org/10.1/ab" = true ∧
    get_pmid_url "https://doi.org/10.1/ab" =
      pmidApiBase ++ afterLastStr "doi.org/" "https://doi.org/10.1/ab" ∧
    hasSubstrStr "doi.org/" "10.5/xyz" = false ∧
    get_pmid_url "10.5/xyz" = pmidApiBase ++ "10.5/xyz" :=
  ⟨by decide, ((C8_normalize "https://doi.org/10.1/ab").1 (by decide)).1,
   by decide, ((C8_normalize "10.5/xyz").2 (by decide)).1⟩

/-! ## Claim C9 — PubMed title search -/

/-- C9: the title search URL-encodes the preprint title (each space becomes
the literal escape `%20`, every other character is kept), restricts the
query to the title field (the URL ends in `&field=title`), returns the first
identifier of the ranked result list, and fails with the not-found error
when the result list is empty (the `idlist[0]` lookup on an empty list). -/
theorem C9_title_search :
    (∀ a b : List Char, encTitle (a ++ ' ' :: b) =
       encTitle a ++ '%' :: '2' :: '0' :: encTitle b) ∧
    (∀ c : Char, ¬c = ' ' → ∀ r, encTitle (c :: r) = c :: encTitle r) ∧
    (∀ t : String, pubmed_url t =
       pubmedBase ++ String.mk (encTitle t.data) ++ "&field=title") ∧
    (∀ (details : Except RxErr String)
       (titleOf : String → Except RxErr String)
       (searchOf : String → Except RxErr (List String)) (d t : String),
       details = Except.ok d → titleOf d = Except.ok t →
       (∀ p rest, searchOf (pubmed_url t) = Except.ok (p :: rest) →
          get_rxiv_pmid details titleOf searchOf = Except.ok p) ∧
       (searchOf (pubmed_url t) = Except.ok [] →
          get_rxiv_pmid details titleOf searchOf = Except.error RxErr.notFound)) := by
  refine ⟨?_, ?_, fun t => rfl, ?_⟩
  · intro a b
    induction a with
    | nil => simp [encTitle]
    | cons c r ih =>
      by_cases hc : c = ' '
      · simp [encTitle, hc, ih]
      · simp [encTitle, hc, ih]
  · intro c hc r
    simp [encTitle, hc]
  · intro details titleOf searchOf d t hd ht
    subst hd
    constructor
    · intro p rest hsearch
      simp [get_rxiv_pmid, ht, hsearch]
    · intro hsearch
      simp [get_rxiv_pmid, ht, hsearch]

/-- C9 (witness): the title-search theorem instantiated on concrete
oracles with a two-element and an empty result list. -/
theorem C9_witness :
    get_rxiv_pmid (Except.ok "D") (fun _ => Except.ok "A B")
      (fun _ => Except.ok ["42", "7"]) = Except.ok "42" ∧
    get_rxiv_pmid (Except.ok "D") (fun _ => Except.ok "A B")
      (fun _ => Except.ok []) = Except.error RxErr.notFound :=
  ⟨(C9_title_search.2.2.2 (Except.ok "D") (fun _ => Except.ok "A B")
      (fun _ => Except.ok ["42", "7"]) "D" "A B" rfl rfl).1 "42" ["7"] rfl,
   (C9_title_search.2.2.2 (Except.ok "D") (fun _ => Except.ok "A B")
      (fun _ => Except.ok []) "D" "A B" rfl rfl).2 rfl⟩

/-! ## Claim C10 — the two filename derivations agree on DOI links -/

/-- C10: on every input matched by the DOI-link pattern, `get_file_name`
and `get_doi_file_name` agree, both producing the text after the last
`doi.org/` with `/` replaced by `_`; consequently the two functions can
differ only on inputs not matching the pattern. -/
theorem C10_filename_agreement :
    (∀ key : String, doiSearch key.data = true →
       get_file_name key = get_doi_file_name key ∧
       get_file_name key = replaceSlash (afterLastStr "doi.org/" key)) ∧
    (∀ key : String, get_file_name key ≠ get_doi_file_name key →
       doiSearch key.data = false) := by
  have hmain : ∀ key : String, doiSearch key.data = true →
      get_file_name key = get_doi_file_name key ∧
      get_file_name key = replaceSlash (afterLastStr "doi.org/" key) := by
    intro key h
    constructor <;> simp [get_file_name, get_doi_file_name, h]
  refine ⟨hmain, ?_⟩
  intro key hne
  cases hb : doiSearch key.data
  · rfl
  · exact absurd (hmain key hb).1 hne

/-- C10 (witness): the agreement theorem instantiated on a concrete DOI
link. -/
theorem C10_witness :
    doiSearch "https://doi.org/10.1101/2020.01.01.900000".data = true ∧
    get_file_name "https://doi.org/10.1101/2020.01.01.900000" =
      get_doi_file_name "https://doi.org/10.1101/2020.01.01.900000" :=
  ⟨by decide,
   (C10_filename_agreement.1 "https://doi.org/10.1101/2020.01.01.900000"
     (by decide)).1⟩

end Viriation
